import Mathlib

/-!
Verification of the Smart-parking-system operator console.

The definitions below are shallow embeddings of the JavaScript source:

* `checkSlotChanges`, `checkViolationChanges`, `getSlotStatistics` embed the
  notification context (`NotificationContext.js`): slot diffing, violation
  diffing and the on-demand statistics record.
* `loadEntry` / `loadRects` / `loadCalibration` / `serializeRect` embed the
  calibration load (`loadCalibration`) and save (`handleSave`) paths.
* `handleMouseUp` embeds the calibration editor's pointer-up handler,
  `toDisplay` / `toNative` the scale transforms used by `drawCanvas` and
  `handleMouseUp`.
* `maskPlate` embeds the plate-privacy mask of the violations and IMEM
  tables, `notifIsOccupied` / `overlayOccupied` the two occupancy
  normalizations (notification path and `LiveFeed.drawOverlay`).

JavaScript numbers are modelled as rationals (`ℚ`), absent (`undefined`)
fields as `Option`, and objects as association lists with unique keys.
-/

namespace SmartParking

/-- A slot entry as stored in the provider's slot map; only the `isOccupied`
field is read by the diffing and statistics code (the remaining payload
fields feed only notification message text). -/
structure SlotState where
  isOccupied : Bool
deriving DecidableEq, Repr

/-- The two slot-transition notification types emitted by `checkSlotChanges`. -/
inductive SlotEventType where
  | slot_available : SlotEventType
  | slot_occupied : SlotEventType
deriving DecidableEq, Repr

/-- A slot-transition notification: its type and the slot id it concerns. -/
structure SlotEvent where
  type : SlotEventType
  slotId : String
deriving DecidableEq, Repr

/-- JavaScript object property lookup on an association list
(`prevSlotsRef.current[slotId]`); object keys are unique, so taking the
first match is exact. -/
def objGet (m : List (String × SlotState)) (k : String) : Option SlotState :=
  match m with
  | [] => none
  | (k', v) :: t => if k' == k then some v else objGet t k

/-- The comparison in `checkSlotChanges`, split on the previous entry:
`if (prevSlot)` in the source — a missing previous entry emits nothing,
otherwise the occupancy flip decides the notification. -/
def slotEventsForAux (slotId : String) (slot : SlotState) :
    Option SlotState → List SlotEvent
  | none => []
  | some prevSlot =>
    if prevSlot.isOccupied && !slot.isOccupied then
      [⟨SlotEventType.slot_available, slotId⟩]
    else if !prevSlot.isOccupied && slot.isOccupied then
      [⟨SlotEventType.slot_occupied, slotId⟩]
    else []

/-- The body of the `forEach` in `checkSlotChanges`: the notifications
emitted for one current entry, compared against the previous snapshot. -/
def slotEventsFor (prev : List (String × SlotState)) (slotId : String)
    (slot : SlotState) : List SlotEvent :=
  slotEventsForAux slotId slot (objGet prev slotId)

/-- `checkSlotChanges` (NotificationContext): walk the current snapshot in
order and emit the transition notifications for each entry. -/
def checkSlotChanges (prev : List (String × SlotState)) :
    List (String × SlotState) → List SlotEvent
  | [] => []
  | (slotId, slot) :: rest =>
      slotEventsFor prev slotId slot ++ checkSlotChanges prev rest

lemma slotEventsFor_slotId (prev : List (String × SlotState)) (k : String)
    (s : SlotState) : ∀ e ∈ slotEventsFor prev k s, e.slotId = k := by
  intro e he
  rw [slotEventsFor] at he
  rcases h : objGet prev k with _ | p <;> rw [h] at he
  · simp [slotEventsForAux] at he
  · rw [slotEventsForAux] at he
    split_ifs at he <;> simp_all

lemma objGet_eq_none_notMem (curr : List (String × SlotState)) (id : String)
    (h : objGet curr id = none) : id ∉ curr.map Prod.fst := by
  induction curr with
  | nil => simp
  | cons hd tl ih =>
    obtain ⟨k, v⟩ := hd
    rw [objGet] at h
    by_cases hk : (k == id) = true
    · rw [if_pos hk] at h; exact absurd h (by simp)
    · rw [if_neg hk] at h
      simp only [List.map_cons, List.mem_cons]
      push_neg
      exact ⟨fun he => hk (beq_iff_eq.mpr he.symm), ih h⟩

lemma checkSlotChanges_filter_notMem (prev : List (String × SlotState))
    (id : String) :
    ∀ curr : List (String × SlotState), id ∉ curr.map Prod.fst →
      (checkSlotChanges prev curr).filter (fun e => e.slotId == id) = [] := by
  intro curr
  induction curr with
  | nil => intro _; rfl
  | cons hd tl ih =>
    intro hmem
    obtain ⟨k, s⟩ := hd
    rw [List.map_cons, List.mem_cons] at hmem
    push_neg at hmem
    rw [checkSlotChanges, List.filter_append, ih hmem.2, List.append_nil]
    rw [List.filter_eq_nil_iff]
    intro e he
    have := slotEventsFor_slotId prev k s e he
    simp only [beq_iff_eq, this]
    exact fun h => hmem.1 h.symm

lemma checkSlotChanges_filter_mem (prev : List (String × SlotState))
    (id : String) :
    ∀ (curr : List (String × SlotState)) (c : SlotState),
      (curr.map Prod.fst).Nodup → objGet curr id = some c →
      (checkSlotChanges prev curr).filter (fun e => e.slotId == id) =
        slotEventsFor prev id c := by
  intro curr
  induction curr with
  | nil => intro c _ hc; simp [objGet] at hc
  | cons hd tl ih =>
    intro c hnd hc
    obtain ⟨k, s⟩ := hd
    rw [List.map_cons, List.nodup_cons] at hnd
    rw [checkSlotChanges, List.filter_append]
    by_cases hk : k = id
    · subst hk
      rw [objGet] at hc
      simp only [beq_self_eq_true, if_true, Option.some.injEq] at hc
      subst hc
      rw [checkSlotChanges_filter_notMem prev k tl hnd.1]
      rw [List.append_nil, List.filter_eq_self.mpr]
      intro e he
      simp [slotEventsFor_slotId prev k s e he]
    · rw [objGet] at hc
      rw [if_neg (by simpa using hk)] at hc
      rw [ih c hnd.2 hc]
      have hhead : (slotEventsFor prev k s).filter
          (fun e => e.slotId == id) = [] := by
        rw [List.filter_eq_nil_iff]
        intro e he
        simp [slotEventsFor_slotId prev k s e he, hk]
      rw [hhead, List.nil_append]

/-- C1. For slot ids present in both snapshots, `checkSlotChanges` emits
exactly one `slot_available` notification when occupancy flips true→false,
exactly one `slot_occupied` notification when it flips false→true, and
nothing otherwise; an id present only in the current snapshot (no previous
entry) emits nothing. Stated as: the sublist of emitted notifications
naming `id` is exactly the singleton the transition dictates. Current
snapshot keys are unique (it is built from a JavaScript object). -/
theorem checkSlotChanges_spec (prev curr : List (String × SlotState))
    (id : String) (hnd : (curr.map Prod.fst).Nodup) :
    (∀ p c : SlotState, objGet prev id = some p → objGet curr id = some c →
      (checkSlotChanges prev curr).filter (fun e => e.slotId == id) =
        (if p.isOccupied = true ∧ c.isOccupied = false then
          [⟨SlotEventType.slot_available, id⟩]
        else if p.isOccupied = false ∧ c.isOccupied = true then
          [⟨SlotEventType.slot_occupied, id⟩]
        else [])) ∧
    (objGet prev id = none →
      (checkSlotChanges prev curr).filter (fun e => e.slotId == id) = []) := by
  constructor
  · intro p c hp hc
    rw [checkSlotChanges_filter_mem prev id curr c hnd hc]
    rw [slotEventsFor, hp, slotEventsForAux]
    rcases p with ⟨po⟩
    rcases c with ⟨co⟩
    cases po <;> cases co <;> simp
  · intro hp
    rcases hc : objGet curr id with _ | c
    · exact checkSlotChanges_filter_notMem prev id curr
        (objGet_eq_none_notMem curr id hc)
    · rw [checkSlotChanges_filter_mem prev id curr c hnd hc]
      rw [slotEventsFor, hp, slotEventsForAux]

/-- Witness for C1: on the concrete snapshots prev = {A ↦ free, B ↦ occupied},
curr = {A ↦ occupied, B ↦ occupied, C ↦ free}, slot A yields exactly one
`slot_occupied` notification and the newly appeared slot C yields none. -/
theorem checkSlotChanges_spec_witness :
    (checkSlotChanges [("A", ⟨false⟩), ("B", ⟨true⟩)]
        [("A", ⟨true⟩), ("B", ⟨true⟩), ("C", ⟨false⟩)]).filter
        (fun e => e.slotId == "A") = [⟨SlotEventType.slot_occupied, "A"⟩] ∧
    (checkSlotChanges [("A", ⟨false⟩), ("B", ⟨true⟩)]
        [("A", ⟨true⟩), ("B", ⟨true⟩), ("C", ⟨false⟩)]).filter
        (fun e => e.slotId == "C") = [] := by
  refine ⟨?_, ?_⟩
  · have h := (checkSlotChanges_spec [("A", ⟨false⟩), ("B", ⟨true⟩)]
      [("A", ⟨true⟩), ("B", ⟨true⟩), ("C", ⟨false⟩)] "A" (by decide)).1
      ⟨false⟩ ⟨true⟩ (by decide) (by decide)
    simpa using h
  · exact (checkSlotChanges_spec [("A", ⟨false⟩), ("B", ⟨true⟩)]
      [("A", ⟨true⟩), ("B", ⟨true⟩), ("C", ⟨false⟩)] "C" (by decide)).2
      (by decide)

/-- An active-violation record as delivered by the backend; every field may
be absent (`undefined`), reproducing the JavaScript objects compared in
`checkViolationChanges`. -/
structure Violation where
  id : Option ℕ
  license_plate : Option String
  timestamp : Option ℕ
  zone : Option String
deriving DecidableEq, Repr

/-- The matching test inside `checkViolationChanges`:
`(v.id === violation.id) || (v.license_plate === violation.license_plate &&
v.timestamp === violation.timestamp)`. JavaScript strict equality on
possibly-absent fields is `Option` equality: two absent ids compare equal,
and the plate/timestamp fallback is tried regardless of the ids. -/
def sameViolation (v w : Violation) : Bool :=
  v.id == w.id ||
    (v.license_plate == w.license_plate && v.timestamp == w.timestamp)

/-- `checkViolationChanges` (NotificationContext): one `illegal_parking`
notification is emitted per current violation that matches no previous one;
the returned list is those violations, in order. -/
def checkViolationChanges (prev curr : List Violation) : List Violation :=
  curr.filter fun violation => !(prev.any fun v => sameViolation v violation)

lemma sameViolation_refl (v : Violation) : sameViolation v v = true := by
  simp [sameViolation]

/-- Counterexample to C2. The previous list holds one violation with id 1;
the current list appends one with the fresh id 2 but the same plate and
timestamp. The claim's identity rule (share an id, or — lacking one —
matching plate and timestamp) matches the new entry to nothing, so the claim
demands exactly one `illegal_parking` notification; the code also tries the
plate/timestamp fallback when both ids are present, matches the new entry to
the old one, and emits none. -/
theorem checkViolationChanges_counterexample :
    (⟨some 1, some "X", some 5, some "Z"⟩ : Violation).id = some 1 ∧
    (⟨some 2, some "X", some 5, some "Z"⟩ : Violation).id = some 2 ∧
    (checkViolationChanges [⟨some 1, some "X", some 5, some "Z"⟩]
        ([⟨some 1, some "X", some 5, some "Z"⟩] ++
          [⟨some 2, some "X", some 5, some "Z"⟩])).length = 0 := by
  decide

/-- C2 (amended). A current violation is emitted as a new `illegal_parking`
notification exactly when no previous violation matches it under the code's
rule: equal id fields (two absent ids count as equal) or matching
license_plate and timestamp, the latter tried regardless of ids. When the
current list is the previous list plus one entry matching no previous
violation under that rule, exactly that one notification is produced. -/
theorem checkViolationChanges_amended (prev curr : List Violation) :
    (∀ v : Violation, v ∈ checkViolationChanges prev curr ↔
      (v ∈ curr ∧ ∀ w ∈ prev, sameViolation w v = false)) ∧
    (∀ v : Violation, (∀ w ∈ prev, sameViolation w v = false) →
      checkViolationChanges prev (prev ++ [v]) = [v]) := by
  constructor
  · intro v
    rw [checkViolationChanges, List.mem_filter]
    simp [List.any_eq_false]
  · intro v hv
    rw [checkViolationChanges, List.filter_append]
    have h1 : prev.filter
        (fun violation => !(prev.any fun v => sameViolation v violation)) = [] := by
      rw [List.filter_eq_nil_iff]
      intro w hw
      have hany : (prev.any fun v => sameViolation v w) = true :=
        List.any_eq_true.mpr ⟨w, hw, sameViolation_refl w⟩
      simp [hany]
    have h2 : [v].filter
        (fun violation => !(prev.any fun v => sameViolation v violation)) = [v] := by
      rw [List.filter_eq_self]
      intro w hw
      rw [List.mem_singleton] at hw
      subst hw
      simp only [Bool.not_eq_true']
      exact List.any_eq_false.mpr (by simpa using hv)
    rw [h1, h2, List.nil_append]

/-- Witness for C2 (amended): a genuinely fresh violation (new id, new plate,
new timestamp) appended to a one-element previous list yields exactly one
notification, for it. -/
theorem checkViolationChanges_amended_witness :
    checkViolationChanges [⟨some 1, some "X", some 5, some "Z"⟩]
        ([⟨some 1, some "X", some 5, some "Z"⟩] ++
          [⟨some 2, some "Y", some 6, some "Z"⟩]) =
      [⟨some 2, some "Y", some 6, some "Z"⟩] :=
  (checkViolationChanges_amended [⟨some 1, some "X", some 5, some "Z"⟩] []).2
    ⟨some 2, some "Y", some 6, some "Z"⟩ (by decide)

/-- The record returned by `getSlotStatistics` (the input mapping itself,
also returned under `slots`, is omitted). -/
structure SlotStatistics where
  total : ℕ
  occupied : ℕ
  available : ℕ
  occupancyPercentage : ℚ
deriving DecidableEq, Repr

/-- `x.toFixed(1)` on a nonnegative rational: round to one decimal place. -/
def toFixed1 (q : ℚ) : ℚ := (round (q * 10) : ℚ) / 10

lemma toFixed1_close (q : ℚ) : |toFixed1 q - q| ≤ 1 / 20 := by
  have h := abs_sub_round (q * 10)
  rw [abs_sub_comm] at h
  have h2 : toFixed1 q - q = ((round (q * 10) : ℚ) - q * 10) / 10 := by
    rw [toFixed1]; ring
  rw [h2, abs_div, abs_of_pos (show (0 : ℚ) < 10 by norm_num)]
  calc |(round (q * 10) : ℚ) - q * 10| / 10 ≤ (1 / 2) / 10 :=
        (div_le_div_iff_of_pos_right (by norm_num)).mpr h
    _ = 1 / 20 := by norm_num

/-- `getSlotStatistics` (NotificationContext): counts over the live slot
mapping and the occupancy percentage, guarded so an empty mapping yields 0
rather than a division by zero. -/
def getSlotStatistics (slotStatus : List (String × SlotState)) :
    SlotStatistics :=
  let slots := slotStatus.map Prod.snd
  let total := slots.length
  let occupied := (slots.filter fun s => s.isOccupied).length
  let available := total - occupied
  let occupancyPercentage : ℚ :=
    if 0 < total then toFixed1 (((occupied : ℚ) / (total : ℚ)) * 100) else 0
  ⟨total, occupied, available, occupancyPercentage⟩

/-- C3. `getSlotStatistics` returns total = the number of slots, occupied =
the number of slots with `isOccupied` true, available = total − occupied, and
an occupancy percentage that is an exact multiple of 0.1 within 0.05 of
(occupied/total)·100 when total > 0 and 0 when total = 0; on the empty
mapping everything is 0, on the full mapping {A ↦ occupied} the percentage is
100, and the end-to-end diff of {A ↦ occupied} against {A ↦ free} is the
single `slot_occupied` notification for A. -/
theorem getSlotStatistics_spec :
    (∀ m : List (String × SlotState),
      (getSlotStatistics m).total = m.length ∧
      (getSlotStatistics m).occupied =
        ((m.map Prod.snd).filter fun s => s.isOccupied).length ∧
      (getSlotStatistics m).available =
        (getSlotStatistics m).total - (getSlotStatistics m).occupied ∧
      (m.length = 0 → (getSlotStatistics m).occupancyPercentage = 0) ∧
      (0 < m.length → ∃ k : ℤ,
        (getSlotStatistics m).occupancyPercentage = (k : ℚ) / 10 ∧
        |(getSlotStatistics m).occupancyPercentage -
          ((getSlotStatistics m).occupied : ℚ) /
            ((getSlotStatistics m).total : ℚ) * 100| ≤ 1 / 20)) ∧
    getSlotStatistics [] = ⟨0, 0, 0, 0⟩ ∧
    (getSlotStatistics [("A", ⟨true⟩)]).occupancyPercentage = 100 ∧
    checkSlotChanges [("A", ⟨false⟩)] [("A", ⟨true⟩)] =
      [⟨SlotEventType.slot_occupied, "A"⟩] := by
  refine ⟨?_, by decide, ?_, by decide⟩
  · intro m
    refine ⟨by simp [getSlotStatistics], by simp [getSlotStatistics],
      by simp [getSlotStatistics], ?_, ?_⟩
    · intro h0
      simp [getSlotStatistics, h0]
    · intro h0
      have hlen : 0 < (m.map Prod.snd).length := by simpa using h0
      have hocc : (getSlotStatistics m).occupancyPercentage =
          toFixed1 ((((getSlotStatistics m).occupied : ℚ) /
            ((getSlotStatistics m).total : ℚ)) * 100) := by
        simp only [getSlotStatistics]
        rw [if_pos hlen]
      exact ⟨round ((((getSlotStatistics m).occupied : ℚ) /
          ((getSlotStatistics m).total : ℚ)) * 100 * 10),
        by rw [hocc]; rfl,
        by rw [hocc]; exact toFixed1_close _⟩
  · norm_num [getSlotStatistics, toFixed1]

/-- Witness for C3: on the two-slot mapping {A ↦ occupied, B ↦ free} the
percentage is a multiple of 0.1 within 0.05 of (1/2)·100. -/
theorem getSlotStatistics_spec_witness :
    ∃ k : ℤ,
      (getSlotStatistics [("A", ⟨true⟩), ("B", ⟨false⟩)]).occupancyPercentage =
        (k : ℚ) / 10 ∧
      |(getSlotStatistics [("A", ⟨true⟩), ("B", ⟨false⟩)]).occupancyPercentage -
        ((getSlotStatistics [("A", ⟨true⟩), ("B", ⟨false⟩)]).occupied : ℚ) /
          ((getSlotStatistics [("A", ⟨true⟩), ("B", ⟨false⟩)]).total : ℚ) * 100|
        ≤ 1 / 20 :=
  ((getSlotStatistics_spec.1 [("A", ⟨true⟩), ("B", ⟨false⟩)]).2.2.2.2)
    (by decide)

/-- C10. The statistics record is internally consistent on every mapping:
occupied + available = total, occupied ≤ total, available ≤ total, and
occupied counts exactly the slots whose `isOccupied` field is true. -/
theorem getSlotStatistics_invariant (m : List (String × SlotState)) :
    (getSlotStatistics m).occupied + (getSlotStatistics m).available =
      (getSlotStatistics m).total ∧
    (getSlotStatistics m).occupied ≤ (getSlotStatistics m).total ∧
    (getSlotStatistics m).available ≤ (getSlotStatistics m).total ∧
    (getSlotStatistics m).occupied =
      ((m.map Prod.snd).map SlotState.isOccupied).count true := by
  have hle : ((m.map Prod.snd).filter fun s => s.isOccupied).length ≤
      (m.map Prod.snd).length := List.length_filter_le _ _
  refine ⟨?_, ?_, ?_, ?_⟩
  · simp only [getSlotStatistics]
    omega
  · simpa [getSlotStatistics] using hle
  · simp only [getSlotStatistics]
    omega
  · have hcount : ∀ l : List SlotState,
        (l.map SlotState.isOccupied).count true =
          (l.filter fun s => s.isOccupied).length := by
      intro l
      induction l with
      | nil => rfl
      | cons hd tl ih =>
        rcases hd with ⟨b⟩
        cases b <;> simp [List.count_cons, ih]
    rw [hcount]
    simp [getSlotStatistics]

/-- A calibration rectangle in width/height form, as held in the editor's
`rectangles` state. -/
structure Rect where
  id : String
  x : ℚ
  y : ℚ
  width : ℚ
  height : ℚ
deriving DecidableEq, Repr

/-- One entry of `loadCalibration`'s mapping step: an id→coords entry is kept
exactly when the coords value is an array of length 4
(`Array.isArray(coords) && coords.length === 4`), converted to width/height
form; anything else maps to `null` and is removed by `.filter(Boolean)`. -/
def loadEntry : String × List ℚ → Option Rect
  | (i, [x1, y1, x2, y2]) => some ⟨i, x1, y1, x2 - x1, y2 - y1⟩
  | _ => none

/-- The per-collection body of `loadCalibration`: map entries through
`loadEntry` and drop the `null`s. -/
def loadRects (entries : List (String × List ℚ)) : List Rect :=
  entries.filterMap loadEntry

/-- `loadCalibration` (Calibration.js): both collections of the fetched
payload converted to Rectangle lists. -/
def loadCalibration (parking_slots illegal_zones : List (String × List ℚ)) :
    List Rect × List Rect :=
  (loadRects parking_slots, loadRects illegal_zones)

/-- The 4-tuple built for one rectangle in `handleSave`:
`[round(x), round(y), round(x+width), round(y+height)]`. -/
def serializeRect (r : Rect) : List ℤ :=
  [round r.x, round r.y, round (r.x + r.width), round (r.y + r.height)]

/-- The save path of `handleSave` on one collection: id→4-tuple entries. -/
def serializeRects (rs : List Rect) : List (String × List ℤ) :=
  rs.map fun r => (r.id, serializeRect r)

lemma loadEntry_isSome (e : String × List ℚ) :
    (loadEntry e).isSome = (e.2.length == 4) := by
  obtain ⟨i, l⟩ := e
  match l with
  | [] => rfl
  | [_] => rfl
  | [_, _] => rfl
  | [_, _, _] => rfl
  | [_, _, _, _] => rfl
  | _ :: _ :: _ :: _ :: _ :: _ => rfl

lemma loadRects_length (entries : List (String × List ℚ)) :
    (loadRects entries).length =
      (entries.filter fun e => e.2.length == 4).length := by
  induction entries with
  | nil => rfl
  | cons hd tl ih =>
    simp only [loadRects] at ih ⊢
    rcases h : loadEntry hd with _ | r
    · have hlen : (hd.2.length == 4) = false := by rw [← loadEntry_isSome, h]; rfl
      simp only [List.filterMap_cons, h, List.filter_cons, hlen]
      exact ih
    · have hlen : (hd.2.length == 4) = true := by rw [← loadEntry_isSome, h]; rfl
      simp only [List.filterMap_cons, h, List.filter_cons, hlen, if_true,
        List.length_cons]
      omega

/-- Counterexample to C4. The tuple [300, 300, 100, 100] has x2 < x1 and
y2 < y1, so under the claim's validation it is malformed and must be
dropped; `loadCalibration` only checks that the value is an array of length
4, keeps it, and produces a rectangle with negative width and height. -/
theorem loadCalibration_counterexample :
    (loadCalibration [("A1", [300, 300, 100, 100])] []).1 =
      [⟨"A1", 300, 300, -200, -200⟩] := by
  have h : (100 : ℚ) - 300 = -200 := by norm_num
  simp [loadCalibration, loadRects, loadEntry, h]

/-- C4 (amended). `loadCalibration` validates only that each id→value entry
in both collections is an array with exactly 4 members: those entries are
kept and converted to width/height Rectangle form
{id, x:x1, y:y1, width:x2−x1, height:y2−y1}, every other entry is dropped
silently (the load is a total function — no exception path), and no check of
x2>x1 or y2>y1 is made. -/
theorem loadCalibration_amended (ps iz : List (String × List ℚ)) :
    ((loadCalibration ps iz).1.length =
      (ps.filter fun e => e.2.length == 4).length) ∧
    ((loadCalibration ps iz).2.length =
      (iz.filter fun e => e.2.length == 4).length) ∧
    (∀ (i : String) (x1 y1 x2 y2 : ℚ),
      loadEntry (i, [x1, y1, x2, y2]) = some ⟨i, x1, y1, x2 - x1, y2 - y1⟩) ∧
    (∀ e : String × List ℚ, e.2.length ≠ 4 → loadEntry e = none) := by
  refine ⟨loadRects_length ps, loadRects_length iz, fun i x1 y1 x2 y2 => rfl, ?_⟩
  intro e he
  obtain ⟨i, l⟩ := e
  rcases l with _ | ⟨a, l⟩
  · rfl
  rcases l with _ | ⟨b, l⟩
  · rfl
  rcases l with _ | ⟨c, l⟩
  · rfl
  rcases l with _ | ⟨d, l⟩
  · rfl
  rcases l with _ | ⟨e', l⟩
  · exact absurd rfl he
  · rfl

/-- Witness for C4 (amended): a 3-member tuple is dropped. -/
theorem loadCalibration_amended_witness :
    loadEntry ("B2", [1, 2, 3]) = none :=
  (loadCalibration_amended [] []).2.2.2 ("B2", [1, 2, 3]) (by decide)

/-- C5. Loading an integer 4-tuple with x2 > x1 and y2 > y1 and then saving
(`handleSave` rounds x, y, x+width, y+height to the nearest integer)
reproduces the identical tuple; in particular {"A1": [100,100,300,300]}
round-trips unchanged. -/
theorem load_serialize_roundtrip (i : String) (x1 y1 x2 y2 : ℤ)
    (h1 : x1 < x2) (h2 : y1 < y2) :
    serializeRects (loadRects
        [(i, [(x1 : ℚ), (y1 : ℚ), (x2 : ℚ), (y2 : ℚ)])]) =
      [(i, [x1, y1, x2, y2])] := by
  have h3 : (x1 : ℚ) + ((x2 : ℚ) - (x1 : ℚ)) = (x2 : ℚ) := by ring
  have h4 : (y1 : ℚ) + ((y2 : ℚ) - (y1 : ℚ)) = (y2 : ℚ) := by ring
  simp [loadRects, loadEntry, serializeRects, serializeRect, h3, h4,
    round_intCast]

/-- Witness for C5: the spec's concrete tuple [100, 100, 300, 300]. -/
theorem load_serialize_roundtrip_witness :
    serializeRects (loadRects [("A1", [((100 : ℤ) : ℚ), ((100 : ℤ) : ℚ),
        ((300 : ℤ) : ℚ), ((300 : ℤ) : ℚ)])]) =
      [("A1", [(100 : ℤ), 100, 300, 300])] :=
  load_serialize_roundtrip "A1" 100 100 300 300 (by decide) (by decide)

/-- The display-direction transform: `drawCanvas` multiplies each of x, y,
width, height by the respective scale factor. -/
def toDisplay (r : Rect) (scaleX scaleY : ℚ) : Rect :=
  ⟨r.id, r.x * scaleX, r.y * scaleY, r.width * scaleX, r.height * scaleY⟩

/-- The native-direction transform: `handleMouseUp` divides display
coordinates by the same factors (it multiplies by naturalWidth/canvas.width,
the reciprocal scale). -/
def toNative (r : Rect) (scaleX scaleY : ℚ) : Rect :=
  ⟨r.id, r.x / scaleX, r.y / scaleY, r.width / scaleX, r.height / scaleY⟩

/-- C7. For every rectangle and positive scale pair, mapping to display
space and back to native space is the identity, exactly, over ℚ. -/
theorem toNative_toDisplay_roundtrip (r : Rect) (sx sy : ℚ)
    (hx : 0 < sx) (hy : 0 < sy) :
    toNative (toDisplay r sx sy) sx sy = r := by
  rcases r with ⟨i, x, y, w, h⟩
  simp only [toDisplay, toNative, Rect.mk.injEq]
  exact ⟨trivial, mul_div_cancel_right₀ _ (ne_of_gt hx),
    mul_div_cancel_right₀ _ (ne_of_gt hy),
    mul_div_cancel_right₀ _ (ne_of_gt hx),
    mul_div_cancel_right₀ _ (ne_of_gt hy)⟩

/-- Witness for C7: a concrete rectangle at scale (2, 3). -/
theorem toNative_toDisplay_roundtrip_witness :
    toNative (toDisplay ⟨"R1", 1, 2, 3, 4⟩ 2 3) 2 3 = ⟨"R1", 1, 2, 3, 4⟩ :=
  toNative_toDisplay_roundtrip ⟨"R1", 1, 2, 3, 4⟩ 2 3 (by decide) (by decide)

/-- The editor's drawing mode (`mode` state: 'slots' or 'illegal'). -/
inductive Mode where
  | slots : Mode
  | illegal : Mode
deriving DecidableEq, Repr

/-- The in-progress rectangle (`currentRect` state). -/
structure DraftRect where
  startX : ℚ
  startY : ℚ
  endX : ℚ
  endY : ℚ
deriving DecidableEq, Repr

/-- The calibration editor's state: mode, the two rectangle collections,
and the drawing flags. -/
structure EditorState where
  mode : Mode
  slots : List Rect
  illegal : List Rect
  isDrawing : Bool
  currentRect : Option DraftRect
deriving DecidableEq, Repr

/-- `setRectangles(prev => ({...prev, [mode]: [...prev[mode], newRect]}))`:
append to the collection selected by the current mode. -/
def addRectToMode (st : EditorState) (r : Rect) : EditorState :=
  match st.mode with
  | Mode.slots => { st with slots := st.slots ++ [r] }
  | Mode.illegal => { st with illegal := st.illegal ++ [r] }

/-- `setIsDrawing(false); setCurrentRect(null)`: the transition back to the
idle drawing state, performed on every path out of `handleMouseUp` that got
past the initial guard. -/
def idleReset (st : EditorState) : EditorState :=
  { st with isDrawing := false, currentRect := none }

/-- `id.trim()` of JavaScript: strip leading and trailing whitespace. -/
def jsTrim (s : String) : String :=
  ⟨((s.data.dropWhile Char.isWhitespace).reverse.dropWhile
      Char.isWhitespace).reverse⟩

/-- `const id = prompt(...); if (id && id.trim()) { ...add... }`: commit the
finished rectangle only when the operator supplied an id whose trimmed form
is non-empty. -/
def commitRect (st : EditorState) (x1 y1 x2 y2 : ℚ) :
    Option String → EditorState
  | some id =>
    if jsTrim id ≠ "" then
      addRectToMode st ⟨jsTrim id, x1, y1, x2 - x1, y2 - y1⟩
    else st
  | none => st

/-- `handleMouseUp` (Calibration.js). `ready` stands for
`canvas && image && image.complete`; `promptResult` is the operator's answer
to the id prompt (`none` = cancelled). Not drawing or no in-progress
rectangle: no change. Otherwise the final rectangle is computed from the
draft's start corner and the pointer-up position, converted to native space
with scale naturalWidth/canvas.width, kept only when both canvas-space
extents strictly exceed 20 pixels and a non-empty trimmed id is supplied;
drawing state is cleared in every such case. -/
def handleMouseUp (st : EditorState) (pos : ℚ × ℚ)
    (canvasWidth canvasHeight naturalWidth naturalHeight : ℚ)
    (ready : Bool) (promptResult : Option String) : EditorState :=
  match st.isDrawing, st.currentRect with
  | true, some currentRect =>
    if ready = false then idleReset st
    else
      let x1Canvas := min currentRect.startX pos.1
      let y1Canvas := min currentRect.startY pos.2
      let x2Canvas := max currentRect.startX pos.1
      let y2Canvas := max currentRect.startY pos.2
      let scaleX := naturalWidth / canvasWidth
      let scaleY := naturalHeight / canvasHeight
      let x1 := x1Canvas * scaleX
      let y1 := y1Canvas * scaleY
      let x2 := x2Canvas * scaleX
      let y2 := y2Canvas * scaleY
      let st1 :=
        if 20 < x2Canvas - x1Canvas ∧ 20 < y2Canvas - y1Canvas then
          commitRect st x1 y1 x2 y2 promptResult
        else st
      idleReset st1
  | _, _ => st

/-- Counterexample to C6. A drag from (0,0) to (20,20) on an unscaled canvas
has display-space width and height exactly 20 — not below the 20-pixel
threshold, so the claim demands the id prompt and, with id "S1" supplied, an
added rectangle; the code requires both extents to strictly exceed 20 and
discards it, adding nothing. -/
theorem handleMouseUp_counterexample :
    max (0 : ℚ) 20 - min (0 : ℚ) 20 = 20 ∧
    (handleMouseUp ⟨Mode.slots, [], [], true, some ⟨0, 0, 0, 0⟩⟩ (20, 20)
        100 100 100 100 true (some "S1")).slots = [] := by
  have h1 : min (0 : ℚ) 20 = 0 := min_eq_left (by norm_num)
  have h2 : max (0 : ℚ) 20 = 20 := max_eq_right (by norm_num)
  constructor
  · rw [h2, h1]; norm_num
  · simp only [handleMouseUp, h1, h2]
    rw [if_neg (by simp)]
    rw [if_neg (by norm_num)]
    rfl

/-- C6 (amended). On pointerUp while drawing with the canvas ready: when the
drawn rectangle's display-space width or height is 20 pixels or smaller, it
is discarded — the result does not depend on any prompt answer and no
collection changes; when both extents strictly exceed 20 pixels, the
rectangle (converted to native space) is appended to the current mode's
collection exactly when a non-empty trimmed id is supplied; in every case
the editor returns to idle (isDrawing false, in-progress rectangle
cleared). -/
theorem handleMouseUp_amended (st : EditorState) (cr : DraftRect)
    (pos : ℚ × ℚ) (cw ch nw nh : ℚ) (pr : Option String)
    (hd : st.isDrawing = true) (hc : st.currentRect = some cr) :
    (handleMouseUp st pos cw ch nw nh true pr).isDrawing = false ∧
    (handleMouseUp st pos cw ch nw nh true pr).currentRect = none ∧
    ((max cr.startX pos.1 - min cr.startX pos.1 ≤ 20 ∨
      max cr.startY pos.2 - min cr.startY pos.2 ≤ 20) →
      handleMouseUp st pos cw ch nw nh true pr =
        { st with isDrawing := false, currentRect := none }) ∧
    (20 < max cr.startX pos.1 - min cr.startX pos.1 →
     20 < max cr.startY pos.2 - min cr.startY pos.2 →
      (pr = none →
        handleMouseUp st pos cw ch nw nh true pr =
          { st with isDrawing := false, currentRect := none }) ∧
      (∀ id, pr = some id → jsTrim id = "" →
        handleMouseUp st pos cw ch nw nh true pr =
          { st with isDrawing := false, currentRect := none }) ∧
      (∀ id, pr = some id → jsTrim id ≠ "" →
        handleMouseUp st pos cw ch nw nh true pr =
          { addRectToMode st ⟨jsTrim id,
              min cr.startX pos.1 * (nw / cw),
              min cr.startY pos.2 * (nh / ch),
              max cr.startX pos.1 * (nw / cw) -
                min cr.startX pos.1 * (nw / cw),
              max cr.startY pos.2 * (nh / ch) -
                min cr.startY pos.2 * (nh / ch)⟩ with
            isDrawing := false, currentRect := none })) := by
  obtain ⟨mo, sl, il, dr, curr⟩ := st
  simp only at hd hc
  subst hd; subst hc
  simp only [handleMouseUp]
  rw [if_neg (by simp)]
  refine ⟨rfl, rfl, ?_, ?_⟩
  · intro hsmall
    have hnbig : ¬(20 < max cr.startX pos.1 - min cr.startX pos.1 ∧
        20 < max cr.startY pos.2 - min cr.startY pos.2) := by
      rcases hsmall with h | h
      · exact fun hb => absurd hb.1 (not_lt.mpr h)
      · exact fun hb => absurd hb.2 (not_lt.mpr h)
    rw [if_neg hnbig]
    rfl
  · intro hx hy
    rw [if_pos ⟨hx, hy⟩]
    rcases pr with _ | id
    · exact ⟨fun _ => rfl, fun id' h => Option.noConfusion h,
        fun id' h => Option.noConfusion h⟩
    · refine ⟨fun h => Option.noConfusion h, ?_, ?_⟩
      · intro id' h htr
        obtain rfl : id = id' := by injection h
        simp only [commitRect]
        rw [if_neg (fun hne => hne htr)]
        rfl
      · intro id' h htr
        obtain rfl : id = id' := by injection h
        simp only [commitRect]
        rw [if_pos htr]
        rfl

/-- Witness for C6 (amended): a drag from (0,0) to (30,25) on an unscaled
100×100 canvas with id " S1 " supplied appends the trimmed rectangle to the
slots collection and returns the editor to idle. -/
theorem handleMouseUp_amended_witness :
    (handleMouseUp ⟨Mode.slots, [], [], true, some ⟨0, 0, 30, 25⟩⟩ (30, 25)
        100 100 100 100 true (some " S1 ")).isDrawing = false ∧
    (handleMouseUp ⟨Mode.slots, [], [], true, some ⟨0, 0, 30, 25⟩⟩ (30, 25)
        100 100 100 100 true (some " S1 ")) =
      { addRectToMode ⟨Mode.slots, [], [], true, some ⟨0, 0, 30, 25⟩⟩
          ⟨jsTrim " S1 ",
            min (0 : ℚ) 30 * (100 / 100), min (0 : ℚ) 25 * (100 / 100),
            max (0 : ℚ) 30 * (100 / 100) - min (0 : ℚ) 30 * (100 / 100),
            max (0 : ℚ) 25 * (100 / 100) - min (0 : ℚ) 25 * (100 / 100)⟩ with
        isDrawing := false, currentRect := none } := by
  have h := handleMouseUp_amended ⟨Mode.slots, [], [], true, some ⟨0, 0, 30, 25⟩⟩
    ⟨0, 0, 30, 25⟩ (30, 25) 100 100 100 100 (some " S1 ") rfl rfl
  have hx : (20 : ℚ) < max (0 : ℚ) 30 - min (0 : ℚ) 30 := by
    rw [max_eq_right (by norm_num : (0 : ℚ) ≤ 30),
      min_eq_left (by norm_num : (0 : ℚ) ≤ 30)]
    norm_num
  have hy : (20 : ℚ) < max (0 : ℚ) 25 - min (0 : ℚ) 25 := by
    rw [max_eq_right (by norm_num : (0 : ℚ) ≤ 25),
      min_eq_left (by norm_num : (0 : ℚ) ≤ 25)]
    norm_num
  exact ⟨h.1, (h.2.2.2 hx hy).2.2 " S1 " rfl (by decide)⟩

/-- The character-level prefix test underlying `String.includes`. -/
def charsStartWith : List Char → List Char → Bool
  | [], _ => true
  | _ :: _, [] => false
  | a :: as, b :: bs => a == b && charsStartWith as bs

/-- `hay.includes(needle)` of JavaScript on character lists: the needle
occurs starting at some position. -/
def listIncludes (needle : List Char) : List Char → Bool
  | [] => charsStartWith needle []
  | c :: t => charsStartWith needle (c :: t) || listIncludes needle t

/-- `s.includes(sub)` on strings. -/
def jsIncludes (s sub : String) : Bool := listIncludes sub.data s.data

/-- `plate.toUpperCase()`: uppercase every character. -/
def jsToUpper (s : String) : String := ⟨s.data.map Char.toUpper⟩

/-- `maskPlate` (ViolationsTable and IMEMTable, identical bodies): `!plate`
(absent or empty) gives "N/A"; a plate whose uppercase form contains "GOVT"
or "ROYAL" anywhere is anonymized; anything else passes through. -/
def maskPlate : Option String → String
  | none => "N/A"
  | some p =>
    if p = "" then "N/A"
    else if jsIncludes (jsToUpper p) "GOVT" ||
        jsIncludes (jsToUpper p) "ROYAL" then
      "***ANONYMIZED***"
    else p

/-- The mathematical substring relation: `needle` occurs contiguously
somewhere inside `hay` (any position, not only as a prefix). -/
def IsSubstring (needle hay : List Char) : Prop :=
  ∃ s t, hay = s ++ needle ++ t

lemma charsStartWith_iff (n : List Char) :
    ∀ h : List Char, charsStartWith n h = true ↔ ∃ t, h = n ++ t := by
  induction n with
  | nil =>
    intro h
    constructor
    · intro _; exact ⟨h, rfl⟩
    · intro _; rfl
  | cons a as ih =>
    intro h
    cases h with
    | nil => simp [charsStartWith]
    | cons b bs =>
      rw [charsStartWith, Bool.and_eq_true, beq_iff_eq, ih bs]
      constructor
      · rintro ⟨rfl, t, rfl⟩; exact ⟨t, rfl⟩
      · rintro ⟨t, het⟩
        injection het with h1 h2
        exact ⟨h1.symm, t, h2⟩

lemma listIncludes_iff (n : List Char) :
    ∀ h : List Char, listIncludes n h = true ↔ IsSubstring n h := by
  intro h
  induction h with
  | nil =>
    rw [listIncludes, charsStartWith_iff]
    constructor
    · rintro ⟨t, ht⟩; exact ⟨[], t, by simpa using ht⟩
    · rintro ⟨s, t, hst⟩
      have h0 : n = [] := by
        have h1 := hst.symm
        simp only [List.append_eq_nil] at h1
        exact h1.1.2
      exact ⟨[], by simp [h0]⟩
  | cons c t ih =>
    rw [listIncludes, Bool.or_eq_true, charsStartWith_iff, ih]
    constructor
    · rintro (⟨t', ht⟩ | hsub)
      · exact ⟨[], t', by simpa using ht⟩
      · obtain ⟨s, t', rfl⟩ := hsub
        exact ⟨c :: s, t', rfl⟩
    · rintro ⟨s, t', hst⟩
      cases s with
      | nil => exact Or.inl ⟨t', by simpa using hst⟩
      | cons x s' =>
        right
        injection hst with h1 h2
        exact ⟨s', t', h2⟩

/-- C8. `maskPlate` anonymizes exactly the plates whose uppercase form
contains "GOVT" or "ROYAL" as a substring anywhere (any position, per
`IsSubstring`), passes every other non-empty plate through unchanged, and
maps a missing or empty plate to "N/A". -/
theorem maskPlate_spec (p : String) (hne : p ≠ "") :
    ((IsSubstring "GOVT".data (jsToUpper p).data ∨
      IsSubstring "ROYAL".data (jsToUpper p).data) →
      maskPlate (some p) = "***ANONYMIZED***") ∧
    (¬(IsSubstring "GOVT".data (jsToUpper p).data ∨
       IsSubstring "ROYAL".data (jsToUpper p).data) →
      maskPlate (some p) = p) ∧
    maskPlate none = "N/A" ∧ maskPlate (some "") = "N/A" := by
  have hmask : maskPlate (some p) =
      if jsIncludes (jsToUpper p) "GOVT" || jsIncludes (jsToUpper p) "ROYAL" then
        "***ANONYMIZED***" else p := by
    rw [maskPlate, if_neg hne]
  refine ⟨?_, ?_, rfl, rfl⟩
  · intro hsub
    rw [hmask, if_pos]
    rw [Bool.or_eq_true]
    rcases hsub with hsub | hsub
    · exact Or.inl ((listIncludes_iff _ _).mpr hsub)
    · exact Or.inr ((listIncludes_iff _ _).mpr hsub)
  · intro hsub
    rw [hmask, if_neg]
    intro hb
    rcases Bool.or_eq_true _ _ |>.mp hb with hb | hb
    · exact hsub (Or.inl ((listIncludes_iff _ _).mp hb))
    · exact hsub (Or.inr ((listIncludes_iff _ _).mp hb))

/-- Witness for C8: "bt-govt-12" uppercases to "BT-GOVT-12", which contains
"GOVT" mid-string, so it is anonymized. -/
theorem maskPlate_spec_witness :
    maskPlate (some "bt-govt-12") = "***ANONYMIZED***" :=
  (maskPlate_spec "bt-govt-12" (by decide)).1
    (Or.inl ⟨"BT-".data, "-12".data, by decide⟩)

/-- The notification path's occupancy normalization
(`isOccupied || slot.status === 'occupied'` in `checkSlotChanges`). -/
def notifIsOccupied (isOccupied : Bool) (status : Option String) : Bool :=
  isOccupied || status == some "occupied"

/-- The overlay renderer's occupancy test (`LiveFeed.drawOverlay`):
`state === 'OCCUPIED' || state === 'occupied' || state === 'OCCUPY'`. -/
def overlayOccupied (state : Option String) : Bool :=
  state == some "OCCUPIED" || state == some "occupied" ||
    state == some "OCCUPY"

/-- Counterexample to C9. On a payload whose status string is "OCCUPIED"
with no boolean flag, the notification path computes not-occupied while the
overlay renderer computes occupied: the two normalizations are not
uniform. -/
theorem occupancyNormalization_counterexample :
    notifIsOccupied false (some "OCCUPIED") = false ∧
    overlayOccupied (some "OCCUPIED") = true := by
  decide

/-- C9 (amended). The two normalizations agree on a payload exactly when its
status string is the lowercase "occupied", or its boolean flag equals the
overlay's uppercase test (status "OCCUPIED" or "OCCUPY"); in particular they
disagree whenever the flag is set but the status is none of the three
recognized strings, or the status is "OCCUPIED"/"OCCUPY" with the flag
unset. -/
theorem occupancyNormalization_agree (b : Bool) (s : Option String) :
    notifIsOccupied b s = overlayOccupied s ↔
      (s = some "occupied" ∨
        b = (s == some "OCCUPIED" || s == some "OCCUPY")) := by
  by_cases hocc : s = some "occupied"
  · subst hocc
    simp [notifIsOccupied, overlayOccupied]
  · have h1 : (s == some "occupied") = false := by
      rw [beq_eq_false_iff_ne]
      exact hocc
    simp [notifIsOccupied, overlayOccupied, h1, hocc]

end SmartParking
